import Mathlib

/-!
Shallow embedding of `src/iron_business_hostess/database.py` (class
`ReservationDB`) and proofs about its reservation logic.

Modelling conventions:
* A Python `datetime` is a wall-clock value: whole minutes since an epoch,
  plus the `second` and `microsecond` fields, plus an optional fixed UTC
  offset in minutes (`none` = timezone-naive).  `pytz.timezone` objects are
  modelled as fixed offsets (the configured zone, Europe/Moscow, has a fixed
  offset): `localize` attaches the offset keeping the wall clock, and
  `astimezone` shifts the wall clock by the offset difference.
* The sqlite `reservations` table is a list of rows plus the next
  AUTOINCREMENT id.  `slot_datetime TEXT` stores `isoformat()` of a
  normalized aware datetime; since all stored values carry the same fixed
  offset, string equality and string ordering coincide with equality and
  ordering of the wall-clock minutes, which is how they are modelled here.
* A raised `sqlite3.IntegrityError` (the `UNIQUE(table_id, slot_datetime)`
  constraint) rolls the transaction back; it is modelled as `Except.error ()`
  with the state unchanged.
-/

/-- Python `datetime`: wall-clock minutes since an epoch, seconds and
microseconds within the minute, and an optional UTC offset (minutes);
`tz = none` models a naive datetime. -/
structure Dtm where
  minutes : Int
  second : Nat
  micro : Nat
  tz : Option Int
deriving DecidableEq, Repr

/-- `dt + timedelta(minutes = m)`: timedelta addition keeps the tzinfo and
shifts the wall clock. -/
def addMinutes (d : Dtm) (m : Int) : Dtm :=
  { d with minutes := d.minutes + m }

/-- A row of the `tables` table: `{id, name, capacity, zone}`. -/
structure RTable where
  id : Int
  name : String
  capacity : Int
  zone : String
deriving DecidableEq, Repr

/-- The `status` column: `'confirmed'` or `'cancelled'`. -/
inductive RStatus where
  | confirmed
  | cancelled
deriving DecidableEq, Repr

/-- A row of the `reservations` table. -/
structure Resv where
  id : Nat
  table_id : Int
  slot_datetime : Dtm
  client_name : String
  phone_number : String
  guests_count : Int
  booked_at : Dtm
  status : RStatus
deriving DecidableEq, Repr

/-- The mutable sqlite state: the reservation rows (in insertion order,
matching rowid scan order) and the next AUTOINCREMENT id. -/
structure DBState where
  resvs : List Resv
  nextId : Nat
deriving DecidableEq, Repr

/-- The freshly initialised database (`_init_db` on a new file). -/
def emptyDB : DBState := { resvs := [], nextId := 1 }

/-- The immutable part of a `ReservationDB` object: the restaurant timezone
(as a fixed UTC offset in minutes), `slot_duration_minutes`, and the seeded
`tables` rows (`tables_config`). -/
structure ReservationDB where
  tzOffsetMinutes : Int
  slot_duration_minutes : Int
  tables_config : List RTable
deriving DecidableEq, Repr

namespace ReservationDB

/-- `ReservationDB._normalize_datetime`: localize a naive datetime to the
restaurant timezone (or convert an aware one to it), then truncate the
minute with `(dt.minute // 30) * 30` — note the literal 30 in the source —
and zero seconds and microseconds. -/
def _normalize_datetime (db : ReservationDB) (dt : Dtm) : Dtm :=
  let d : Dtm :=
    match dt.tz with
    | none => { dt with tz := some db.tzOffsetMinutes }
    | some o => { dt with minutes := dt.minutes + (db.tzOffsetMinutes - o),
                          tz := some db.tzOffsetMinutes }
  let minuteOfHour : Int := d.minutes % 60
  let minute : Int := (minuteOfHour / 30) * 30
  { minutes := d.minutes - minuteOfHour + minute, second := 0, micro := 0,
    tz := d.tz }

end ReservationDB

/-- The SQL filter of `find_available_table`: `capacity >= guests_count AND
id NOT IN (SELECT table_id FROM reservations WHERE slot_datetime = ? AND
status = 'confirmed')`. -/
def fitsAndFree (st : DBState) (nslot : Dtm) (guests_count : Int)
    (t : RTable) : Bool :=
  decide (guests_count ≤ t.capacity) &&
    !(st.resvs.any fun r =>
      r.slot_datetime == nslot && r.status == RStatus.confirmed &&
        r.table_id == t.id)

/-- `ORDER BY capacity ASC LIMIT 1` over a candidate list: the first row of
minimal capacity. -/
def selectMinCapacity : List RTable → Option RTable
  | [] => none
  | t :: ts =>
    match selectMinCapacity ts with
    | none => some t
    | some b => if t.capacity ≤ b.capacity then some t else some b

namespace ReservationDB

/-- `ReservationDB.find_available_table`. -/
def find_available_table (db : ReservationDB) (st : DBState)
    (requested_dt : Dtm) (guests_count : Int) : Option Int :=
  let nslot := db._normalize_datetime requested_dt
  (selectMinCapacity
      (db.tables_config.filter (fitsAndFree st nslot guests_count))).map
    (fun t => t.id)

end ReservationDB

/-- Python truthiness of an `Optional[int]`: `None` and `0` are falsy.  The
source tests `if not table_id:` and `if self.find_available_table(...):`. -/
def truthy : Option Int → Bool
  | none => false
  | some n => n != 0

/-- The result dict of a successful `book_slot`:
`{"datetime", "table_name", "zone"}`. -/
structure BookResult where
  datetime : Dtm
  table_name : String
  zone : String
deriving DecidableEq, Repr

/-- The result dict of a successful `update_reservation_time`:
`{"datetime", "table_name", "zone", "guests_count"}`. -/
structure ChangeResult where
  datetime : Dtm
  table_name : String
  zone : String
  guests_count : Int
deriving DecidableEq, Repr

/-- `SELECT id, ... FROM reservations WHERE phone_number = ? AND status =
'confirmed' ORDER BY slot_datetime DESC LIMIT 1`: the confirmed reservation
of the phone with the latest slot (stored isoformat strings of
equal-offset datetimes order like their wall-clock minutes). -/
def latestConfirmed (phone_number : String) : List Resv → Option Resv
  | [] => none
  | r :: rs =>
    let rest := latestConfirmed phone_number rs
    if r.phone_number == phone_number && r.status == RStatus.confirmed then
      match rest with
      | none => some r
      | some b =>
        if b.slot_datetime.minutes > r.slot_datetime.minutes then some b
        else some r
    else rest

namespace ReservationDB

/-- `ReservationDB.book_slot`.  Result `Except.ok none` models Python's
`return None` (no table, per truthiness also a table id 0);
`Except.error ()` models the `UNIQUE(table_id, slot_datetime)` constraint
firing on the INSERT (the transaction rolls back). -/
def book_slot (db : ReservationDB) (now : Dtm) (st : DBState)
    (requested_dt : Dtm) (client_name phone_number : String)
    (guests_count : Int) : Except Unit (Option BookResult) × DBState :=
  match db.find_available_table st requested_dt guests_count with
  | none => (Except.ok none, st)
  | some table_id =>
    if table_id == 0 then (Except.ok none, st)
    else
      let normalized_dt := db._normalize_datetime requested_dt
      if st.resvs.any (fun r =>
          r.table_id == table_id && r.slot_datetime == normalized_dt) then
        (Except.error (), st)
      else
        let row : Resv :=
          { id := st.nextId, table_id := table_id,
            slot_datetime := normalized_dt, client_name := client_name,
            phone_number := phone_number, guests_count := guests_count,
            booked_at := now, status := RStatus.confirmed }
        -- SELECT name, zone FROM tables WHERE id = ?; the id came from
        -- the tables scan, so the `none` branch is unreachable.
        let info : BookResult :=
          match db.tables_config.find? (fun t => t.id == table_id) with
          | some t => { datetime := normalized_dt, table_name := t.name,
                        zone := t.zone }
          | none => { datetime := normalized_dt, table_name := "",
                      zone := "" }
        (Except.ok (some info),
          { resvs := st.resvs ++ [row], nextId := st.nextId + 1 })

end ReservationDB

/-- Chronological order on slot values.  All slots compared by the code
carry the same fixed offset and zero seconds, so Python's aware-datetime
comparison is exactly comparison of the wall-clock minutes. -/
def slotLe (a b : Dtm) : Prop := a.minutes ≤ b.minutes

instance : DecidableRel slotLe := fun a b =>
  inferInstanceAs (Decidable (a.minutes ≤ b.minutes))

instance : IsTotal Dtm slotLe := ⟨fun a b => Int.le_total a.minutes b.minutes⟩

instance : IsTrans Dtm slotLe := ⟨fun _ _ _ h1 h2 => le_trans h1 h2⟩

/-- The `while len(alternatives) < num and offset < 24` loop of
`get_alternative_slots`, with the inner `for direction in [-1, 1]` body and
its `break`.  `fuel` counts the remaining offsets (initially 23, for
offsets 1..23). -/
def altLoop (db : ReservationDB) (st : DBState) (guests_count : Int)
    (num_alternatives : Nat) (normalized_dt : Dtm) :
    Nat → Int → List Dtm → List Dtm
  | 0, _, acc => acc
  | fuel + 1, offset, acc =>
    if acc.length < num_alternatives then
      let s1 := addMinutes normalized_dt
        (db.slot_duration_minutes * offset * (-1))
      let acc1 :=
        if truthy (db.find_available_table st s1 guests_count) then
          acc ++ [s1]
        else acc
      if num_alternatives ≤ acc1.length then acc1
      else
        let s2 := addMinutes normalized_dt
          (db.slot_duration_minutes * offset * 1)
        let acc2 :=
          if truthy (db.find_available_table st s2 guests_count) then
            acc1 ++ [s2]
          else acc1
        altLoop db st guests_count num_alternatives normalized_dt fuel
          (offset + 1) acc2
    else acc

namespace ReservationDB

/-- `ReservationDB.get_alternative_slots`: search offsets 1..23 in both
directions (earlier first), then `sorted(alternatives)` — Python's stable
sort, chronologically ascending. -/
def get_alternative_slots (db : ReservationDB) (st : DBState)
    (requested_dt : Dtm) (guests_count : Int) (num_alternatives : Nat) :
    List Dtm :=
  let normalized_dt := db._normalize_datetime requested_dt
  List.insertionSort slotLe
    (altLoop db st guests_count num_alternatives normalized_dt 23 1 [])

end ReservationDB

/-- Step 1 of `update_reservation_time`: locate the reservation to move —
by phone and exact normalized old slot if `old_dt` is given (first row in
scan order), else the phone's latest confirmed reservation. -/
def locateReservation (db : ReservationDB) (st : DBState)
    (phone_number : String) (old_dt : Option Dtm) : Option Resv :=
  match old_dt with
  | some od =>
    let old_dt_str := db._normalize_datetime od
    st.resvs.find? (fun r =>
      r.phone_number == phone_number && r.slot_datetime == old_dt_str &&
        r.status == RStatus.confirmed)
  | none => latestConfirmed phone_number st.resvs

namespace ReservationDB

/-- `ReservationDB.update_reservation_time`.  `Except.ok none` models
`return None` (no matching reservation, or no table / table id 0 at the new
slot); `Except.error ()` models the UNIQUE constraint firing on the UPDATE
(rollback). -/
def update_reservation_time (db : ReservationDB) (now : Dtm) (st : DBState)
    (phone_number : String) (old_dt : Option Dtm) (new_dt : Dtm) :
    Except Unit (Option ChangeResult) × DBState :=
  let normalized_new_dt := db._normalize_datetime new_dt
  match locateReservation db st phone_number old_dt with
  | none => (Except.ok none, st)
  | some row =>
    match db.find_available_table st normalized_new_dt row.guests_count with
    | none => (Except.ok none, st)
    | some table_id =>
      if table_id == 0 then (Except.ok none, st)
      else if st.resvs.any (fun r =>
          !(r.id == row.id) && r.table_id == table_id &&
            r.slot_datetime == normalized_new_dt) then
        (Except.error (), st)
      else
        let st' : DBState :=
          { st with resvs := st.resvs.map (fun r =>
              if r.id == row.id then
                { r with slot_datetime := normalized_new_dt,
                         table_id := table_id, booked_at := now }
              else r) }
        let info : ChangeResult :=
          match db.tables_config.find? (fun t => t.id == table_id) with
          | some t => { datetime := normalized_new_dt,
                        table_name := t.name, zone := t.zone,
                        guests_count := row.guests_count }
          | none => { datetime := normalized_new_dt, table_name := "",
                      zone := "", guests_count := row.guests_count }
        (Except.ok (some info), st')

/-- `ReservationDB.cancel_reservation`: flip matching confirmed rows to
`'cancelled'`; the returned Bool is `cursor.rowcount > 0`. -/
def cancel_reservation (db : ReservationDB) (st : DBState)
    (phone_number : String) (requested_dt : Option Dtm) : Bool × DBState :=
  match requested_dt with
  | some d =>
    let dt_str := db._normalize_datetime d
    let hit := st.resvs.any (fun r =>
      r.phone_number == phone_number && r.slot_datetime == dt_str &&
        r.status == RStatus.confirmed)
    (hit,
      { st with resvs := st.resvs.map (fun r =>
          if r.phone_number == phone_number && r.slot_datetime == dt_str &&
              r.status == RStatus.confirmed then
            { r with status := RStatus.cancelled }
          else r) })
  | none =>
    match latestConfirmed phone_number st.resvs with
    | none => (false, st)
    | some row =>
      (true,
        { st with resvs := st.resvs.map (fun r =>
            if r.id == row.id then { r with status := RStatus.cancelled }
            else r) })

end ReservationDB

/-- One ledger operation, with the wall-clock reading (`datetime.now`) the
operation observes where the source reads it. -/
inductive Op where
  | book (now requested_dt : Dtm) (client_name phone_number : String)
      (guests_count : Int)
  | change (now : Dtm) (phone_number : String) (old_dt : Option Dtm)
      (new_dt : Dtm)
  | cancel (phone_number : String) (requested_dt : Option Dtm)
deriving DecidableEq, Repr

/-- State after one operation. -/
def execOp (db : ReservationDB) (st : DBState) : Op → DBState
  | .book now dt n p g => (db.book_slot now st dt n p g).2
  | .change now p od nd => (db.update_reservation_time now st p od nd).2
  | .cancel p d => (db.cancel_reservation st p d).2

/-- State after a sequence of operations. -/
def execOps (db : ReservationDB) : DBState → List Op → DBState
  | st, [] => st
  | st, op :: ops => execOps db (execOp db st op) ops

/-! ### Lemmas about the availability resolver -/

theorem selectMinCapacity_eq_none {l : List RTable} :
    selectMinCapacity l = none ↔ l = [] := by
  cases l with
  | nil => simp [selectMinCapacity]
  | cons a as =>
    simp only [selectMinCapacity]
    constructor
    · intro h
      exfalso
      revert h
      split
      · simp
      · split <;> simp
    · intro h
      simp at h

theorem selectMinCapacity_mem {l : List RTable} {t : RTable}
    (h : selectMinCapacity l = some t) : t ∈ l := by
  induction l generalizing t with
  | nil => simp [selectMinCapacity] at h
  | cons a as ih =>
    simp only [selectMinCapacity] at h
    split at h
    · injection h with h
      exact h ▸ List.mem_cons_self a as
    · rename_i b hrest
      split at h
      · injection h with h
        exact h ▸ List.mem_cons_self a as
      · injection h with h
        exact List.mem_cons_of_mem _ (h ▸ ih hrest)

theorem selectMinCapacity_min {l : List RTable} {t : RTable}
    (h : selectMinCapacity l = some t) :
    ∀ u ∈ l, t.capacity ≤ u.capacity := by
  induction l generalizing t with
  | nil => simp [selectMinCapacity] at h
  | cons a as ih =>
    simp only [selectMinCapacity] at h
    split at h
    · rename_i hrest
      injection h with h
      subst h
      have hnil : as = [] := selectMinCapacity_eq_none.mp hrest
      subst hnil
      intro u hu
      rw [List.mem_singleton] at hu
      exact hu ▸ le_refl _
    · rename_i b hrest
      have hbmin := ih hrest
      split at h
      · rename_i hc
        injection h with h
        subst h
        intro u hu
        rcases List.mem_cons.mp hu with h' | h'
        · exact h' ▸ le_refl _
        · exact le_trans hc (hbmin u h')
      · rename_i hc
        injection h with h
        subst h
        intro u hu
        rcases List.mem_cons.mp hu with h' | h'
        · exact h' ▸ le_of_not_le hc
        · exact hbmin u h'

/-- Semantic reading of the SQL candidate filter. -/
theorem fitsAndFree_iff {st : DBState} {nslot : Dtm} {g : Int}
    {t : RTable} :
    fitsAndFree st nslot g t = true ↔
      g ≤ t.capacity ∧
        ∀ r ∈ st.resvs, r.status = RStatus.confirmed →
          r.slot_datetime = nslot → r.table_id ≠ t.id := by
  unfold fitsAndFree
  simp only [Bool.and_eq_true, decide_eq_true_eq, Bool.not_eq_true',
    List.any_eq_false, beq_iff_eq]
  constructor
  · rintro ⟨h1, h2⟩
    refine ⟨h1, fun r hr hst hslot heq => ?_⟩
    have := h2 r hr
    simp [hst, hslot, heq] at this
  · rintro ⟨h1, h2⟩
    refine ⟨h1, fun r hr => ?_⟩
    by_cases hslot : r.slot_datetime = nslot
    · by_cases hst : r.status = RStatus.confirmed
      · simp [hslot, hst]
        exact h2 r hr hst hslot
      · simp [hst]
    · simp [hslot]

/-- A successful lookup returns the id of a fitting, free table of minimal
capacity among the fitting free ones. -/
theorem find_available_table_some {db : ReservationDB} {st : DBState}
    {dt : Dtm} {g : Int} {i : Int}
    (h : db.find_available_table st dt g = some i) :
    ∃ t ∈ db.tables_config, t.id = i ∧
      fitsAndFree st (db._normalize_datetime dt) g t = true ∧
        ∀ u ∈ db.tables_config,
          fitsAndFree st (db._normalize_datetime dt) g u = true →
            t.capacity ≤ u.capacity := by
  unfold ReservationDB.find_available_table at h
  simp only [Option.map_eq_some'] at h
  obtain ⟨t, hsel, hid⟩ := h
  have hmem := selectMinCapacity_mem hsel
  rw [List.mem_filter] at hmem
  refine ⟨t, hmem.1, hid, hmem.2, fun u hu hfit => ?_⟩
  exact selectMinCapacity_min hsel u (List.mem_filter.mpr ⟨hu, hfit⟩)

/-- A `None` lookup means no table both fits and is free. -/
theorem find_available_table_eq_none {db : ReservationDB} {st : DBState}
    {dt : Dtm} {g : Int} :
    db.find_available_table st dt g = none ↔
      ∀ t ∈ db.tables_config,
        fitsAndFree st (db._normalize_datetime dt) g t = false := by
  unfold ReservationDB.find_available_table
  simp only [Option.map_eq_none', selectMinCapacity_eq_none,
    List.filter_eq_nil_iff]
  constructor
  · intro h t ht
    exact Bool.eq_false_iff.mpr (h t ht)
  · intro h t ht
    exact Bool.eq_false_iff.mp (h t ht)

/-- No confirmed reservation at the (normalized) slot holds the returned
table. -/
theorem find_available_table_not_booked {db : ReservationDB} {st : DBState}
    {dt : Dtm} {g : Int} {i : Int}
    (h : db.find_available_table st dt g = some i) :
    ∀ r ∈ st.resvs, r.status = RStatus.confirmed →
      r.slot_datetime = db._normalize_datetime dt → r.table_id ≠ i := by
  obtain ⟨t, _, hid, hfit, _⟩ := find_available_table_some h
  intro r hr hst hslot
  exact hid ▸ (fitsAndFree_iff.mp hfit).2 r hr hst hslot

/-- The returned table fits the requested party size. -/
theorem find_available_table_capacity {db : ReservationDB} {st : DBState}
    {dt : Dtm} {g : Int} {i : Int}
    (h : db.find_available_table st dt g = some i) :
    ∃ t ∈ db.tables_config, t.id = i ∧ g ≤ t.capacity := by
  obtain ⟨t, hmem, hid, hfit, _⟩ := find_available_table_some h
  exact ⟨t, hmem, hid, (fitsAndFree_iff.mp hfit).1⟩

/-! ### Lemmas about slot normalization -/

/-- The wall-clock minutes after the timezone step of
`_normalize_datetime`. -/
def wallShift (db : ReservationDB) (dt : Dtm) : Int :=
  match dt.tz with
  | none => dt.minutes
  | some o => dt.minutes + (db.tzOffsetMinutes - o)

theorem dtNormalize_eq (db : ReservationDB) (dt : Dtm) :
    db._normalize_datetime dt =
      ⟨wallShift db dt - wallShift db dt % 60 +
          (wallShift db dt % 60 / 30) * 30, 0, 0,
        some db.tzOffsetMinutes⟩ := by
  unfold ReservationDB._normalize_datetime wallShift
  cases h : dt.tz <;> simp [h]

/-- `_normalize_datetime` is idempotent. -/
theorem dtNormalize_idem (db : ReservationDB) (dt : Dtm) :
    db._normalize_datetime (db._normalize_datetime dt) =
      db._normalize_datetime dt := by
  rw [dtNormalize_eq db dt, dtNormalize_eq db]
  simp only [wallShift, Dtm.mk.injEq, and_true, true_and]
  omega

/-! ### Locating reservations -/

theorem latestConfirmed_mem {p : String} {l : List Resv} {r : Resv}
    (h : latestConfirmed p l = some r) : r ∈ l := by
  induction l generalizing r with
  | nil => simp [latestConfirmed] at h
  | cons a as ih =>
    simp only [latestConfirmed] at h
    split at h
    · split at h
      · injection h with h
        exact h ▸ List.mem_cons_self a as
      · rename_i b hrest
        split at h
        · injection h with h
          exact List.mem_cons_of_mem _ (h ▸ ih hrest)
        · injection h with h
          exact h ▸ List.mem_cons_self a as
    · exact List.mem_cons_of_mem _ (ih h)

theorem latestConfirmed_props {p : String} {l : List Resv} {r : Resv}
    (h : latestConfirmed p l = some r) :
    r.phone_number = p ∧ r.status = RStatus.confirmed := by
  induction l generalizing r with
  | nil => simp [latestConfirmed] at h
  | cons a as ih =>
    simp only [latestConfirmed] at h
    split at h
    · rename_i hcond
      rw [Bool.and_eq_true, beq_iff_eq, beq_iff_eq] at hcond
      split at h
      · injection h with h
        exact h ▸ hcond
      · rename_i b hrest
        split at h
        · injection h with h
          exact h ▸ ih hrest
        · injection h with h
          exact h ▸ hcond
    · exact ih h

theorem latestConfirmed_eq_none_of {p : String} {l : List Resv}
    (h : ∀ r ∈ l, r.phone_number = p → r.status ≠ RStatus.confirmed) :
    latestConfirmed p l = none := by
  induction l with
  | nil => rfl
  | cons a as ih =>
    simp only [latestConfirmed]
    have hcond :
        (a.phone_number == p && a.status == RStatus.confirmed) = false := by
      by_cases hph : a.phone_number = p
      · have := h a (List.mem_cons_self a as) hph
        simp [hph, this]
      · simp [hph]
    rw [hcond]
    simp only [Bool.false_eq_true, if_false]
    exact ih (fun r hr => h r (List.mem_cons_of_mem _ hr))

theorem locateReservation_mem {db : ReservationDB} {st : DBState}
    {p : String} {od : Option Dtm} {row : Resv}
    (h : locateReservation db st p od = some row) : row ∈ st.resvs := by
  unfold locateReservation at h
  cases od with
  | none => exact latestConfirmed_mem h
  | some d => exact List.mem_of_find?_eq_some h

/-! ### The ledger invariant -/

/-- Invariant 1 of the spec: no two confirmed reservations share
`(table_id, slot_datetime)`. -/
def noDoubleBooking (st : DBState) : Prop :=
  st.resvs.Pairwise (fun r1 r2 =>
    ¬(r1.status = RStatus.confirmed ∧ r2.status = RStatus.confirmed ∧
      r1.table_id = r2.table_id ∧ r1.slot_datetime = r2.slot_datetime))

/-- Invariant 3 of the spec: every confirmed reservation sits at a seeded
table of sufficient capacity. -/
def capacityRespected (db : ReservationDB) (st : DBState) : Prop :=
  ∀ r ∈ st.resvs, r.status = RStatus.confirmed →
    ∃ t ∈ db.tables_config, t.id = r.table_id ∧ r.guests_count ≤ t.capacity

/-- The inductive invariant: AUTOINCREMENT ids are fresh and distinct, no
double booking, capacities respected. -/
def LedgerInv (db : ReservationDB) (st : DBState) : Prop :=
  (∀ r ∈ st.resvs, r.id < st.nextId) ∧
    (st.resvs.map Resv.id).Nodup ∧ noDoubleBooking st ∧
    capacityRespected db st

theorem map_map_id_eq {f : Resv → Resv} (hf : ∀ r, (f r).id = r.id) :
    ∀ l : List Resv, (l.map f).map Resv.id = l.map Resv.id := by
  intro l
  induction l with
  | nil => rfl
  | cons a as ih => simp [hf, ih]

/-- A row-wise rewrite that keeps id, table, slot and guests, and fixes any
row it leaves confirmed, preserves the invariant (both UPDATE statements of
`cancel_reservation` have this shape). -/
theorem ledgerInv_statusWeaken {db : ReservationDB} {st : DBState}
    (f : Resv → Resv) (hid : ∀ r, (f r).id = r.id)
    (hconf : ∀ r, (f r).status = RStatus.confirmed → f r = r)
    (h : LedgerInv db st) :
    LedgerInv db { st with resvs := st.resvs.map f } := by
  obtain ⟨hbound, hnodup, hexcl, hcap⟩ := h
  refine ⟨?_, ?_, ?_, ?_⟩
  · intro r hr
    rw [List.mem_map] at hr
    obtain ⟨a, ha, rfl⟩ := hr
    exact hid a ▸ hbound a ha
  · exact (map_map_id_eq hid st.resvs) ▸ hnodup
  · unfold noDoubleBooking at hexcl ⊢
    rw [List.pairwise_map]
    refine hexcl.imp ?_
    intro a b hab hcon
    apply hab
    obtain ⟨hca, hcb, htab, hslot⟩ := hcon
    have ha' := hconf a hca
    have hb' := hconf b hcb
    rw [ha'] at hca htab hslot
    rw [hb'] at hcb htab hslot
    exact ⟨hca, hcb, htab, hslot⟩
  · intro r hr hst
    rw [List.mem_map] at hr
    obtain ⟨a, ha, rfl⟩ := hr
    have ha' := hconf a hst
    rw [ha'] at hst ⊢
    exact hcap a ha hst

theorem ledgerInv_book {db : ReservationDB} {st : DBState}
    (now dt : Dtm) (n p : String) (g : Int) (h : LedgerInv db st) :
    LedgerInv db (db.book_slot now st dt n p g).2 := by
  rcases hfind : db.find_available_table st dt g with _ | tid
  · simp only [ReservationDB.book_slot, hfind]
    exact h
  · simp only [ReservationDB.book_slot, hfind]
    by_cases hz : (tid == 0) = true
    · rw [if_pos hz]
      exact h
    · rw [if_neg hz]
      by_cases hcl : (st.resvs.any fun r =>
          r.table_id == tid &&
            r.slot_datetime == db._normalize_datetime dt) = true
      · rw [if_pos hcl]
        exact h
      · rw [if_neg hcl]
        obtain ⟨hbound, hnodup, hexcl, hcap⟩ := h
        refine ⟨?_, ?_, ?_, ?_⟩
        · intro r hr
          simp only [List.mem_append, List.mem_singleton] at hr
          rcases hr with hr | hr
          · exact Nat.lt_succ_of_lt (hbound r hr)
          · rw [hr]
            exact Nat.lt_succ_self _
        · rw [List.map_append, List.nodup_append]
          refine ⟨hnodup, List.nodup_singleton _, ?_⟩
          intro a ha hb
          simp only [List.map_cons, List.map_nil, List.mem_singleton] at hb
          rw [List.mem_map] at ha
          obtain ⟨r, hr, rfl⟩ := ha
          exact absurd (hb ▸ hbound r hr) (lt_irrefl _)
        · unfold noDoubleBooking
          rw [List.pairwise_append]
          refine ⟨hexcl, List.pairwise_singleton _ _, ?_⟩
          intro a ha b hb
          rw [List.mem_singleton] at hb
          subst hb
          rintro ⟨hca, hcb, htab, hslot⟩
          exact find_available_table_not_booked hfind a ha hca hslot htab
        · intro r hr hst
          simp only [List.mem_append, List.mem_singleton] at hr
          rcases hr with hr | hr
          · exact hcap r hr hst
          · subst hr
            exact find_available_table_capacity hfind

theorem ledgerInv_change {db : ReservationDB} {st : DBState}
    (now : Dtm) (p : String) (od : Option Dtm) (nd : Dtm)
    (h : LedgerInv db st) :
    LedgerInv db (db.update_reservation_time now st p od nd).2 := by
  rcases hloc : locateReservation db st p od with _ | row
  · simp only [ReservationDB.update_reservation_time, hloc]
    exact h
  · rcases hfind : db.find_available_table st (db._normalize_datetime nd)
        row.guests_count with _ | tid
    · simp only [ReservationDB.update_reservation_time, hloc, hfind]
      exact h
    · simp only [ReservationDB.update_reservation_time, hloc, hfind]
      by_cases hz : (tid == 0) = true
      · rw [if_pos hz]
        exact h
      · rw [if_neg hz]
        by_cases hcl : (st.resvs.any fun r =>
            !(r.id == row.id) && r.table_id == tid &&
              r.slot_datetime == db._normalize_datetime nd) = true
        · rw [if_pos hcl]
          exact h
        · rw [if_neg hcl]
          obtain ⟨hbound, hnodup, hexcl, hcap⟩ := h
          have hrowmem : row ∈ st.resvs := locateReservation_mem hloc
          have hnb := find_available_table_not_booked hfind
          rw [dtNormalize_idem] at hnb
          have hcapn := find_available_table_capacity hfind
          have hids : st.resvs.Pairwise (fun a b => a.id ≠ b.id) :=
            List.pairwise_map.mp hnodup
          have hidkeep : ∀ b : Resv,
              (if b.id == row.id then
                { b with slot_datetime := db._normalize_datetime nd,
                         table_id := tid, booked_at := now }
              else b).id = b.id := by
            intro b
            by_cases hb : b.id = row.id <;> simp [hb]
          refine ⟨?_, ?_, ?_, ?_⟩
          · intro r hr
            rw [List.mem_map] at hr
            obtain ⟨a, ha, rfl⟩ := hr
            rw [hidkeep a]
            exact hbound a ha
          · rw [map_map_id_eq hidkeep st.resvs]
            exact hnodup
          · unfold noDoubleBooking at hexcl ⊢
            rw [List.pairwise_map]
            refine (hexcl.and hids).imp_of_mem ?_
            intro a b ha hb hab
            obtain ⟨hab, hidab⟩ := hab
            by_cases hca : a.id = row.id <;> by_cases hcb : b.id = row.id
            · exact absurd (hca.trans hcb.symm) hidab
            · simp only [beq_iff_eq, if_pos hca, if_neg hcb]
              rintro ⟨_, hcfb, htab, hslot⟩
              exact hnb b hb hcfb hslot.symm htab.symm
            · simp only [beq_iff_eq, if_pos hcb, if_neg hca]
              rintro ⟨hcfa, _, htab, hslot⟩
              exact hnb a ha hcfa hslot htab
            · simp only [beq_iff_eq, if_neg hca, if_neg hcb]
              exact hab
          · intro r hr hst
            rw [List.mem_map] at hr
            obtain ⟨a, ha, rfl⟩ := hr
            by_cases hcase : a.id = row.id
            · have haeq : a = row :=
                List.inj_on_of_nodup_map hnodup ha hrowmem hcase
              subst haeq
              simp only [beq_self_eq_true, if_true] at hst ⊢
              obtain ⟨t, ht, htid, hcapt⟩ := hcapn
              exact ⟨t, ht, htid, hcapt⟩
            · simp only [beq_iff_eq, if_neg hcase] at hst ⊢
              exact hcap a ha hst

theorem ledgerInv_cancel {db : ReservationDB} {st : DBState}
    (p : String) (d : Option Dtm) (h : LedgerInv db st) :
    LedgerInv db (db.cancel_reservation st p d).2 := by
  rcases d with _ | dd
  · rcases hlat : latestConfirmed p st.resvs with _ | row
    · simp only [ReservationDB.cancel_reservation, hlat]
      exact h
    · simp only [ReservationDB.cancel_reservation, hlat]
      refine ledgerInv_statusWeaken _ ?_ ?_ h
      · intro r
        by_cases hc : r.id = row.id <;> simp [hc]
      · intro r hst
        by_cases hc : (r.id == row.id) = true
        · rw [if_pos hc] at hst
          simp at hst
        · rw [if_neg hc] at hst ⊢
  · simp only [ReservationDB.cancel_reservation]
    refine ledgerInv_statusWeaken _ ?_ ?_ h
    · intro r
      by_cases hc : (r.phone_number == p &&
          r.slot_datetime == db._normalize_datetime dd &&
          r.status == RStatus.confirmed) = true <;> simp [hc]
    · intro r hst
      by_cases hc : (r.phone_number == p &&
          r.slot_datetime == db._normalize_datetime dd &&
          r.status == RStatus.confirmed) = true
      · rw [if_pos hc] at hst
        simp at hst
      · rw [if_neg hc] at hst ⊢

theorem ledgerInv_execOp {db : ReservationDB} {st : DBState} (op : Op)
    (h : LedgerInv db st) : LedgerInv db (execOp db st op) := by
  cases op with
  | book now dt n p g => exact ledgerInv_book now dt n p g h
  | change now p od nd => exact ledgerInv_change now p od nd h
  | cancel p d => exact ledgerInv_cancel p d h

theorem ledgerInv_execOps {db : ReservationDB} (ops : List Op)
    {st : DBState} (h : LedgerInv db st) :
    LedgerInv db (execOps db st ops) := by
  induction ops generalizing st with
  | nil => exact h
  | cons op ops ih => exact ih (ledgerInv_execOp op h)

theorem ledgerInv_empty (db : ReservationDB) : LedgerInv db emptyDB := by
  refine ⟨?_, ?_, ?_, ?_⟩ <;>
    simp [emptyDB, noDoubleBooking, capacityRespected]

/-! ### Concrete fixtures used by witnesses and counterexamples -/

/-- Minutes 0 of some day in the restaurant timezone (UTC+3, Moscow). -/
def nowW : Dtm := ⟨0, 0, 0, some 180⟩

/-- Inventory with capacities {2,4,4,6,8}. -/
def dbW : ReservationDB :=
  ⟨180, 30, [⟨1, "A", 2, "hall"⟩, ⟨2, "B", 4, "hall"⟩, ⟨3, "C", 4, "hall"⟩,
    ⟨4, "D", 6, "veranda"⟩, ⟨5, "E", 8, "veranda"⟩]⟩

/-- Inventory with a single capacity-2 table of id 1. -/
def dbT1 : ReservationDB := ⟨180, 30, [⟨1, "T1", 2, "hall"⟩]⟩

/-- Inventory whose only table has id 0 (for the truthiness claims). -/
def db0 : ReservationDB := ⟨180, 30, [⟨0, "Z", 4, "hall"⟩]⟩

/-! ### C5 — minimal-waste assignment -/

/-- Table `t` has enough capacity and no confirmed reservation holds it at
the slot `nslot`. -/
def FitsFree (st : DBState) (nslot : Dtm) (guests_count : Int)
    (t : RTable) : Prop :=
  guests_count ≤ t.capacity ∧
    ∀ r ∈ st.resvs, r.status = RStatus.confirmed →
      r.slot_datetime = nslot → r.table_id ≠ t.id

theorem fitsAndFree_iff_FitsFree {st : DBState} {nslot : Dtm} {g : Int}
    {t : RTable} :
    fitsAndFree st nslot g t = true ↔ FitsFree st nslot g t :=
  fitsAndFree_iff

/-- C5: whenever some table fits the party and is free at the normalized
slot, `find_available_table` returns the id of a fitting free table of
minimal capacity among the fitting free ones; it returns `None` exactly
when no fitting free table exists. -/
theorem C5_find_available_minimal (db : ReservationDB) (st : DBState)
    (requested_dt : Dtm) (guests_count : Int) :
    (db.find_available_table st requested_dt guests_count = none ↔
      ∀ t ∈ db.tables_config,
        ¬FitsFree st (db._normalize_datetime requested_dt) guests_count t) ∧
    ∀ i, db.find_available_table st requested_dt guests_count = some i →
      ∃ t ∈ db.tables_config, t.id = i ∧
        FitsFree st (db._normalize_datetime requested_dt) guests_count t ∧
        ∀ u ∈ db.tables_config,
          FitsFree st (db._normalize_datetime requested_dt) guests_count u →
            t.capacity ≤ u.capacity := by
  constructor
  · rw [find_available_table_eq_none]
    constructor
    · intro h t ht hfit
      have := h t ht
      rw [fitsAndFree_iff_FitsFree.symm] at hfit
      rw [this] at hfit
      exact Bool.false_ne_true hfit
    · intro h t ht
      rw [Bool.eq_false_iff]
      intro hc
      exact h t ht (fitsAndFree_iff_FitsFree.mp hc)
  · intro i hi
    obtain ⟨t, ht, hid, hfit, hmin⟩ := find_available_table_some hi
    exact ⟨t, ht, hid, fitsAndFree_iff_FitsFree.mp hfit,
      fun u hu hfu => hmin u hu (fitsAndFree_iff_FitsFree.mpr hfu)⟩

/-- C5 witness: with free tables of capacities {2,4,4,6,8}, a request for 3
guests is assigned the first capacity-4 table (id 2), never the 6 or 8. -/
theorem C5_witness :
    ∃ t ∈ dbW.tables_config, t.id = 2 ∧
      FitsFree emptyDB (dbW._normalize_datetime ⟨1085, 3, 4, none⟩) 3 t ∧
      ∀ u ∈ dbW.tables_config,
        FitsFree emptyDB (dbW._normalize_datetime ⟨1085, 3, 4, none⟩) 3 u →
          t.capacity ≤ u.capacity :=
  (C5_find_available_minimal dbW emptyDB ⟨1085, 3, 4, none⟩ 3).2 2
    (by decide)

/-! ### C2 — a cancelled row still blocks the UNIQUE constraint -/

/-- C2: if some (cancelled) row occupies `(table_id, slot)` while the
availability check — which only excludes confirmed rows — still selects
that table, `book_slot` hits the UNIQUE constraint and raises (modelled
`Except.error ()`), leaving the state unchanged, instead of returning
success or the `None` no-table sentinel. -/
theorem C2_cancelled_blocks (db : ReservationDB) (now : Dtm) (st : DBState)
    (requested_dt : Dtm) (client_name phone_number : String)
    (guests_count : Int) (r : Resv) (hr : r ∈ st.resvs)
    (_hcanc : r.status = RStatus.cancelled)
    (hslot : r.slot_datetime = db._normalize_datetime requested_dt)
    (hfind : db.find_available_table st requested_dt guests_count =
      some r.table_id)
    (hnz : r.table_id ≠ 0) :
    db.book_slot now st requested_dt client_name phone_number guests_count =
      (Except.error (), st) := by
  have hany : (st.resvs.any fun x =>
      x.table_id == r.table_id &&
        x.slot_datetime == db._normalize_datetime requested_dt) = true := by
    rw [List.any_eq_true]
    exact ⟨r, hr, by simp [hslot]⟩
  simp only [ReservationDB.book_slot, hfind]
  rw [if_neg (by simp [hnz]), if_pos hany]

/-- The cancelled reservation fixture for C2: table 1 at 18:00 local,
status `'cancelled'`. -/
def stC2 : DBState :=
  ⟨[⟨1, 1, ⟨1080, 0, 0, some 180⟩, "Ivan", "+7", 2, nowW,
    RStatus.cancelled⟩], 2⟩

/-- C2 witness: rebooking the cancelled table/slot errors out. -/
theorem C2_witness :
    dbT1.book_slot nowW stC2 ⟨1080, 0, 0, none⟩ "Olga" "+8" 2 =
      (Except.error (), stC2) :=
  C2_cancelled_blocks dbT1 nowW stC2 ⟨1080, 0, 0, none⟩ "Olga" "+8" 2
    ⟨1, 1, ⟨1080, 0, 0, some 180⟩, "Ivan", "+7", 2, nowW, RStatus.cancelled⟩
    (by decide) (by decide) (by decide) (by decide) (by decide)

/-! ### C3 — change is atomic -/

/-- C3: a failing `update_reservation_time` (no matching confirmed
reservation, no available table — and likewise the modelled UNIQUE error)
leaves the ledger unchanged; a successful one rewrites exactly
`table_id`, `slot_datetime` and `booked_at` of the located row and touches
nothing else. -/
theorem C3_change_atomic (db : ReservationDB) (now : Dtm) (st : DBState)
    (phone_number : String) (old_dt : Option Dtm) (new_dt : Dtm) :
    ((db.update_reservation_time now st phone_number old_dt new_dt).1 =
        Except.ok none →
      (db.update_reservation_time now st phone_number old_dt new_dt).2 =
        st) ∧
    ((db.update_reservation_time now st phone_number old_dt new_dt).1 =
        Except.error () →
      (db.update_reservation_time now st phone_number old_dt new_dt).2 =
        st) ∧
    ∀ info,
      (db.update_reservation_time now st phone_number old_dt new_dt).1 =
          Except.ok (some info) →
        ∃ row, locateReservation db st phone_number old_dt = some row ∧
          ∃ table_id,
            db.find_available_table st (db._normalize_datetime new_dt)
              row.guests_count = some table_id ∧
            (db.update_reservation_time now st phone_number old_dt
                new_dt).2 =
              { st with resvs := st.resvs.map fun r =>
                  if r.id == row.id then
                    { r with
                        slot_datetime := db._normalize_datetime new_dt,
                        table_id := table_id, booked_at := now }
                  else r } := by
  rcases hloc : locateReservation db st phone_number old_dt with _ | row
  · simp only [ReservationDB.update_reservation_time, hloc]
    exact ⟨fun _ => by trivial, fun h => by simp at h,
      fun info h => by simp at h⟩
  · rcases hfind : db.find_available_table st
        (db._normalize_datetime new_dt) row.guests_count with _ | tid
    · simp only [ReservationDB.update_reservation_time, hloc, hfind]
      exact ⟨fun _ => by trivial, fun h => by simp at h,
        fun info h => by simp at h⟩
    · simp only [ReservationDB.update_reservation_time, hloc, hfind]
      by_cases hz : (tid == 0) = true
      · rw [if_pos hz]
        exact ⟨fun _ => by trivial, fun h => by simp at h,
          fun info h => by simp at h⟩
      · rw [if_neg hz]
        by_cases hcl : (st.resvs.any fun r =>
            !(r.id == row.id) && r.table_id == tid &&
              r.slot_datetime == db._normalize_datetime new_dt) = true
        · rw [if_pos hcl]
          exact ⟨fun h => by simp at h, fun _ => rfl,
            fun info h => by simp at h⟩
        · rw [if_neg hcl]
          refine ⟨fun h => by simp at h, fun h => by simp at h,
            fun info _ => ⟨row, rfl, tid, hfind, rfl⟩⟩

/-- A confirmed 18:00 reservation for phone `+7`. -/
def stC3 : DBState :=
  ⟨[⟨1, 1, ⟨1080, 0, 0, some 180⟩, "Ivan", "+7", 2, nowW,
    RStatus.confirmed⟩], 2⟩

/-- C3 witness: a lookup failure leaves the empty ledger untouched, and a
successful change rewrites only the located row's slot, table and
`booked_at`. -/
theorem C3_witness :
    ((dbW.update_reservation_time nowW emptyDB "+7" none
        ⟨1140, 0, 0, none⟩).2 = emptyDB) ∧
    ∃ row, locateReservation dbW stC3 "+7" none = some row ∧
      ∃ table_id,
        dbW.find_available_table stC3
          (dbW._normalize_datetime ⟨1140, 0, 0, none⟩) row.guests_count =
            some table_id ∧
        (dbW.update_reservation_time nowW stC3 "+7" none
            ⟨1140, 0, 0, none⟩).2 =
          { stC3 with resvs := stC3.resvs.map fun r =>
              if r.id == row.id then
                { r with
                    slot_datetime :=
                      dbW._normalize_datetime ⟨1140, 0, 0, none⟩,
                    table_id := table_id, booked_at := nowW }
              else r } :=
  ⟨(C3_change_atomic dbW nowW emptyDB "+7" none ⟨1140, 0, 0, none⟩).1 rfl,
    (C3_change_atomic dbW nowW stC3 "+7" none ⟨1140, 0, 0, none⟩).2.2
      ⟨⟨1140, 0, 0, some 180⟩, "A", "hall", 2⟩ rfl⟩

/-! ### The alternative-slot search loop -/

/-- Every element of the loop's result either was in the accumulator or is
a probed slot `normalized_dt + duration * off * dir` (`off ≥` the current
offset, `dir = ±1`) whose availability check was truthy. -/
theorem altLoop_mem_P {db : ReservationDB} {st : DBState} {g : Int}
    {num : Nat} {nslot : Dtm} (P : Dtm → Prop) :
    ∀ (fuel : Nat) (offset : Int) (acc : List Dtm),
      (∀ s ∈ acc, P s) →
      (∀ off dir : Int, offset ≤ off → dir = -1 ∨ dir = 1 →
        truthy (db.find_available_table st
          (addMinutes nslot (db.slot_duration_minutes * off * dir)) g) =
            true →
        P (addMinutes nslot (db.slot_duration_minutes * off * dir))) →
      ∀ s ∈ altLoop db st g num nslot fuel offset acc, P s := by
  intro fuel
  induction fuel with
  | zero =>
    intro offset acc hacc _ s hs
    exact hacc s hs
  | succ fuel ih =>
    intro offset acc hacc hnew s hs
    by_cases hlen : acc.length < num
    · simp only [altLoop] at hs
      rw [if_pos hlen] at hs
      by_cases hc1 : truthy (db.find_available_table st
          (addMinutes nslot (db.slot_duration_minutes * offset * (-1)))
          g) = true
      · rw [if_pos hc1] at hs
        have hacc1 : ∀ x ∈ acc ++
            [addMinutes nslot (db.slot_duration_minutes * offset * (-1))],
            P x := by
          intro x hx
          rcases List.mem_append.mp hx with hx | hx
          · exact hacc x hx
          · rw [List.mem_singleton] at hx
            subst hx
            exact hnew offset (-1) le_rfl (Or.inl rfl) hc1
        by_cases hlen2 : num ≤ (acc ++
            [addMinutes nslot
              (db.slot_duration_minutes * offset * (-1))]).length
        · rw [if_pos hlen2] at hs
          exact hacc1 s hs
        · rw [if_neg hlen2] at hs
          by_cases hc2 : truthy (db.find_available_table st
              (addMinutes nslot (db.slot_duration_minutes * offset * 1))
              g) = true
          · rw [if_pos hc2] at hs
            refine ih (offset + 1) _ ?_
              (fun off dir hoff hdir hc => hnew off dir (by omega) hdir hc)
              s hs
            intro x hx
            rcases List.mem_append.mp hx with hx | hx
            · exact hacc1 x hx
            · rw [List.mem_singleton] at hx
              subst hx
              exact hnew offset 1 le_rfl (Or.inr rfl) hc2
          · rw [if_neg hc2] at hs
            exact ih (offset + 1) _ hacc1
              (fun off dir hoff hdir hc => hnew off dir (by omega) hdir hc)
              s hs
      · rw [if_neg hc1] at hs
        by_cases hlen2 : num ≤ acc.length
        · rw [if_pos hlen2] at hs
          exact hacc s hs
        · rw [if_neg hlen2] at hs
          by_cases hc2 : truthy (db.find_available_table st
              (addMinutes nslot (db.slot_duration_minutes * offset * 1))
              g) = true
          · rw [if_pos hc2] at hs
            refine ih (offset + 1) _ ?_
              (fun off dir hoff hdir hc => hnew off dir (by omega) hdir hc)
              s hs
            intro x hx
            rcases List.mem_append.mp hx with hx | hx
            · exact hacc x hx
            · rw [List.mem_singleton] at hx
              subst hx
              exact hnew offset 1 le_rfl (Or.inr rfl) hc2
          · rw [if_neg hc2] at hs
            exact ih (offset + 1) _ hacc
              (fun off dir hoff hdir hc => hnew off dir (by omega) hdir hc)
              s hs
    · simp only [altLoop] at hs
      rw [if_neg hlen] at hs
      exact hacc s hs

/-! ### C10 — Python truthiness conflates table id 0 with None -/

/-- C10: when the availability resolver returns table id 0, `book_slot`
answers with the no-table sentinel and an unchanged ledger,
`update_reservation_time` fails the same way, and `get_alternative_slots`
only ever returns slots whose resolver answer was truthy (so a slot whose
best table has id 0 is skipped) — the `if not table_id` /
`if self.find_available_table(...)` tests treat 0 like `None`. -/
theorem C10_truthiness (db : ReservationDB) (now : Dtm) (st : DBState)
    (dt : Dtm) (client_name phone_number : String) (guests_count : Int)
    (phone2 : String) (old_dt : Option Dtm) (new_dt : Dtm)
    (num_alternatives : Nat) :
    (db.find_available_table st dt guests_count = some 0 →
      db.book_slot now st dt client_name phone_number guests_count =
        (Except.ok none, st)) ∧
    (∀ row, locateReservation db st phone2 old_dt = some row →
      db.find_available_table st (db._normalize_datetime new_dt)
          row.guests_count = some 0 →
      db.update_reservation_time now st phone2 old_dt new_dt =
        (Except.ok none, st)) ∧
    ∀ s ∈ db.get_alternative_slots st dt guests_count num_alternatives,
      truthy (db.find_available_table st s guests_count) = true := by
  refine ⟨?_, ?_, ?_⟩
  · intro h
    simp only [ReservationDB.book_slot, h]
    rw [if_pos (by decide)]
  · intro row hrow h
    simp only [ReservationDB.update_reservation_time, hrow, h]
    rw [if_pos (by decide)]
  · intro s hs
    unfold ReservationDB.get_alternative_slots at hs
    have hs' := (List.perm_insertionSort slotLe _).mem_iff.mp hs
    exact altLoop_mem_P
      (fun x => truthy (db.find_available_table st x guests_count) = true)
      23 1 [] (by intro x hx; simp at hx)
      (fun off dir _ _ hc => hc) s hs'

/-- A confirmed reservation of the id-0 table, used to exercise the
truthiness path of `update_reservation_time`. -/
def stC10 : DBState :=
  ⟨[⟨1, 0, ⟨1080, 0, 0, some 180⟩, "Ivan", "+5", 2, nowW,
    RStatus.confirmed⟩], 2⟩

/-- C10 witness: with the only table having id 0, booking returns the
no-table sentinel, rescheduling fails, and a returned alternative slot
always carries a truthy resolver answer. -/
theorem C10_witness :
    db0.book_slot nowW emptyDB ⟨1080, 0, 0, none⟩ "N" "+1" 2 =
      (Except.ok none, emptyDB) ∧
    db0.update_reservation_time nowW stC10 "+5" none ⟨1140, 0, 0, none⟩ =
      (Except.ok none, stC10) ∧
    truthy (dbT1.find_available_table emptyDB ⟨1050, 0, 0, some 180⟩ 2) =
      true :=
  ⟨(C10_truthiness db0 nowW emptyDB ⟨1080, 0, 0, none⟩ "N" "+1" 2 "+5"
      none ⟨1140, 0, 0, none⟩ 5).1 (by decide),
    (C10_truthiness db0 nowW stC10 ⟨1080, 0, 0, none⟩ "N" "+1" 2 "+5"
      none ⟨1140, 0, 0, none⟩ 5).2.1
      ⟨1, 0, ⟨1080, 0, 0, some 180⟩, "Ivan", "+5", 2, nowW,
        RStatus.confirmed⟩ (by decide) (by decide),
    (C10_truthiness dbT1 nowW emptyDB ⟨1080, 0, 0, none⟩ "N" "+1" 2 "+5"
      none ⟨1140, 0, 0, none⟩ 1).2.2 ⟨1050, 0, 0, some 180⟩ (by decide)⟩

/-! ### C7 — alternative slots: no requested slot, chronological order -/

/-- C7 (amended): with a positive slot duration the returned list never
contains the requested normalized slot, and it is sorted chronologically
ascending (`sorted(alternatives)` in the source) — not by distance from
the requested slot. -/
theorem C7_alternatives_sorted (db : ReservationDB) (st : DBState)
    (requested_dt : Dtm) (guests_count : Int) (num_alternatives : Nat)
    (hdur : 0 < db.slot_duration_minutes) :
    db._normalize_datetime requested_dt ∉
      db.get_alternative_slots st requested_dt guests_count
        num_alternatives ∧
    List.Sorted slotLe
      (db.get_alternative_slots st requested_dt guests_count
        num_alternatives) := by
  constructor
  · intro hmem
    unfold ReservationDB.get_alternative_slots at hmem
    have hmem' := (List.perm_insertionSort slotLe _).mem_iff.mp hmem
    have := altLoop_mem_P
      (fun x => x.minutes ≠ (db._normalize_datetime requested_dt).minutes)
      23 1 [] (by intro x hx; simp at hx)
      (fun off dir hoff hdir _ => by
        have hpos : 0 < db.slot_duration_minutes * off :=
          mul_pos hdur (lt_of_lt_of_le one_pos hoff)
        rcases hdir with hdir | hdir <;> subst hdir <;>
          simp only [addMinutes] <;> omega)
      _ hmem'
    exact this rfl
  · exact List.sorted_insertionSort slotLe _

/-- One confirmed reservation on the single table at 17:30 local. -/
def stC7 : DBState :=
  ⟨[⟨1, 1, ⟨1050, 0, 0, some 180⟩, "X", "+1", 2, nowW,
    RStatus.confirmed⟩], 2⟩

/-- C7 counterexample: requesting 18:00 (slot minutes 1080) with 17:30
booked and two alternatives wanted, the code returns
`[17:00, 18:30]` — the 18:30 slot is strictly closer to the request
(30 min) than 17:00 (60 min) yet appears after it, because the list is
sorted chronologically rather than by distance. -/
theorem C7_counterexample :
    dbT1.get_alternative_slots stC7 ⟨1080, 0, 0, none⟩ 2 2 =
      [⟨1020, 0, 0, some 180⟩, ⟨1110, 0, 0, some 180⟩] ∧
    ((1110 - 1080 : Int).natAbs < (1020 - 1080 : Int).natAbs) := by
  constructor
  · decide
  · decide

/-- C7 witness. -/
theorem C7_witness :
    (dbT1._normalize_datetime ⟨1080, 0, 0, none⟩ ∉
      dbT1.get_alternative_slots stC7 ⟨1080, 0, 0, none⟩ 2 2) ∧
    List.Sorted slotLe
      (dbT1.get_alternative_slots stC7 ⟨1080, 0, 0, none⟩ 2 2) :=
  C7_alternatives_sorted dbT1 stC7 ⟨1080, 0, 0, none⟩ 2 2 (by decide)

/-! ### C6 — book_slot never validates the guest count -/

/-- C6 counterexample: a `book_slot` call with `guests_count = 0` on a
fresh ledger is not rejected: it returns a success dict and inserts a
confirmed row carrying guest count 0 — storage is touched and the only
failure sentinel in the function is the no-table `None`. -/
theorem C6_counterexample :
    (dbT1.book_slot nowW emptyDB ⟨1080, 0, 0, none⟩ "Ann" "+2" 0).1 =
      Except.ok (some ⟨⟨1080, 0, 0, some 180⟩, "T1", "hall"⟩) ∧
    (dbT1.book_slot nowW emptyDB ⟨1080, 0, 0, none⟩ "Ann" "+2" 0).2 =
      ⟨[⟨1, 1, ⟨1080, 0, 0, some 180⟩, "Ann", "+2", 0, nowW,
        RStatus.confirmed⟩], 2⟩ :=
  ⟨rfl, by decide⟩

/-- C6 (amended): `book_slot` performs no validation of `guests_count`: a
non-positive guest count flows through the ordinary availability path
(every table trivially satisfies `capacity >= guests_count`), and whenever
the resolver picks a table with nonzero id and no stored row blocks the
`(table, slot)` pair, the call succeeds and inserts a confirmed row with
that non-positive count. -/
theorem C6_no_guest_validation (db : ReservationDB) (now : Dtm)
    (st : DBState) (requested_dt : Dtm) (client_name phone_number : String)
    (guests_count : Int) (table_id : Int)
    (_hg : guests_count ≤ 0)
    (hfind : db.find_available_table st requested_dt guests_count =
      some table_id)
    (hnz : table_id ≠ 0)
    (hnoblock : ∀ r ∈ st.resvs, ¬(r.table_id = table_id ∧
      r.slot_datetime = db._normalize_datetime requested_dt)) :
    ∃ info,
      (db.book_slot now st requested_dt client_name phone_number
          guests_count).1 = Except.ok (some info) ∧
      (db.book_slot now st requested_dt client_name phone_number
          guests_count).2 =
        { resvs := st.resvs ++ [⟨st.nextId, table_id,
            db._normalize_datetime requested_dt, client_name, phone_number,
            guests_count, now, RStatus.confirmed⟩],
          nextId := st.nextId + 1 } := by
  have hany : (st.resvs.any fun r =>
      r.table_id == table_id &&
        r.slot_datetime == db._normalize_datetime requested_dt) =
      false := by
    rw [List.any_eq_false]
    intro r hr
    simp only [Bool.and_eq_true, beq_iff_eq, not_and]
    intro h1 h2
    exact hnoblock r hr ⟨h1, h2⟩
  simp only [ReservationDB.book_slot, hfind]
  rw [if_neg (by simp [hnz]), if_neg (by simp [hany])]
  exact ⟨_, rfl, rfl⟩

/-- C6 witness: booking for 0 guests on the empty ledger succeeds. -/
theorem C6_witness :
    ∃ info,
      (dbT1.book_slot nowW emptyDB ⟨1080, 0, 0, none⟩ "Bob" "+3" 0).1 =
        Except.ok (some info) ∧
      (dbT1.book_slot nowW emptyDB ⟨1080, 0, 0, none⟩ "Bob" "+3" 0).2 =
        { resvs := emptyDB.resvs ++ [⟨emptyDB.nextId, 1,
            dbT1._normalize_datetime ⟨1080, 0, 0, none⟩, "Bob", "+3", 0,
            nowW, RStatus.confirmed⟩],
          nextId := emptyDB.nextId + 1 } :=
  C6_no_guest_validation dbT1 nowW emptyDB ⟨1080, 0, 0, none⟩ "Bob" "+3" 0
    1 (by decide) (by decide) (by decide)
    (by intro r hr; simp [emptyDB] at hr)

/-! ### C8 — repeated cancellation -/

theorem list_map_eq_self {α : Type} {f : α → α} :
    ∀ {l : List α}, (∀ x ∈ l, f x = x) → l.map f = l := by
  intro l
  induction l with
  | nil => intro _; rfl
  | cons a as ih =>
    intro h
    simp only [List.map_cons]
    rw [h a (List.mem_cons_self a as),
      ih (fun x hx => h x (List.mem_cons_of_mem _ hx))]

/-- C8 (amended): when the phone number has no remaining confirmed
reservation — in particular right after a cancellation that removed its
only confirmed one, with no intervening booking — `cancel_reservation` is
a no-op returning `false` (a `Bool`, never an error); and cancellation
never resurrects: every row confirmed afterwards was already confirmed
before, with the same id, table and slot. -/
theorem C8_cancel_safe (db : ReservationDB) (st : DBState)
    (phone_number : String) (requested_dt : Option Dtm) :
    ((∀ r ∈ st.resvs, r.phone_number = phone_number →
        r.status ≠ RStatus.confirmed) →
      db.cancel_reservation st phone_number requested_dt = (false, st)) ∧
    ∀ r2 ∈ (db.cancel_reservation st phone_number requested_dt).2.resvs,
      r2.status = RStatus.confirmed →
      ∃ r1 ∈ st.resvs, r1.id = r2.id ∧ r1.status = RStatus.confirmed ∧
        r1.table_id = r2.table_id ∧
        r1.slot_datetime = r2.slot_datetime := by
  constructor
  · intro hnone
    rcases requested_dt with _ | dd
    · simp only [ReservationDB.cancel_reservation]
      rw [latestConfirmed_eq_none_of hnone]
    · simp only [ReservationDB.cancel_reservation]
      have hcond : ∀ r ∈ st.resvs, (r.phone_number == phone_number &&
          r.slot_datetime == db._normalize_datetime dd &&
          r.status == RStatus.confirmed) = false := by
        intro r hr
        by_cases hph : r.phone_number = phone_number
        · simp [hph, hnone r hr hph]
        · simp [hph]
      have hany : (st.resvs.any fun r =>
          r.phone_number == phone_number &&
            r.slot_datetime == db._normalize_datetime dd &&
            r.status == RStatus.confirmed) = false :=
        List.any_eq_false.mpr (fun r hr => by simp [hcond r hr])
      have hmap : (st.resvs.map fun r =>
          if r.phone_number == phone_number &&
              r.slot_datetime == db._normalize_datetime dd &&
              r.status == RStatus.confirmed then
            { r with status := RStatus.cancelled }
          else r) = st.resvs :=
        list_map_eq_self (fun r hr => by rw [if_neg (by simp [hcond r hr])])
      rw [hany, hmap]
  · rcases requested_dt with _ | dd
    · rcases hlat : latestConfirmed phone_number st.resvs with _ | row
      · simp only [ReservationDB.cancel_reservation, hlat]
        intro r2 hr2 hconf
        exact ⟨r2, hr2, rfl, hconf, rfl, rfl⟩
      · simp only [ReservationDB.cancel_reservation, hlat]
        intro r2 hr2 hconf
        rw [List.mem_map] at hr2
        obtain ⟨r1, hr1, rfl⟩ := hr2
        by_cases hc : (r1.id == row.id) = true
        · rw [if_pos hc] at hconf
          simp at hconf
        · rw [if_neg hc] at hconf ⊢
          exact ⟨r1, hr1, rfl, hconf, rfl, rfl⟩
    · simp only [ReservationDB.cancel_reservation]
      intro r2 hr2 hconf
      rw [List.mem_map] at hr2
      obtain ⟨r1, hr1, rfl⟩ := hr2
      by_cases hc : (r1.phone_number == phone_number &&
          r1.slot_datetime == db._normalize_datetime dd &&
          r1.status == RStatus.confirmed) = true
      · rw [if_pos hc] at hconf
        simp at hconf
      · rw [if_neg hc] at hconf ⊢
        exact ⟨r1, hr1, rfl, hconf, rfl, rfl⟩

/-- Ledger after phone `+7` books both 18:00 and 19:00 on the single
table. -/
def stC8 : DBState :=
  (dbT1.book_slot nowW
    (dbT1.book_slot nowW emptyDB ⟨1080, 0, 0, none⟩ "A" "+7" 2).2
    ⟨1140, 0, 0, none⟩ "A" "+7" 2).2

/-- C8 counterexample: phone `+7` holds two confirmed reservations; the
first slotless cancel returns `true` and cancels only the latest slot, so
the second cancel — after a successful cancellation, with no intervening
booking — returns `true` again, not `false` as claimed. -/
theorem C8_counterexample :
    (dbT1.cancel_reservation stC8 "+7" none).1 = true ∧
    (dbT1.cancel_reservation
        (dbT1.cancel_reservation stC8 "+7" none).2 "+7" none).1 =
      true := by
  constructor <;> decide

/-- One cancelled `+7` reservation and one confirmed `+9` reservation. -/
def stC8w : DBState :=
  ⟨[⟨1, 1, ⟨1080, 0, 0, some 180⟩, "I", "+7", 2, nowW, RStatus.cancelled⟩,
    ⟨2, 1, ⟨1140, 0, 0, some 180⟩, "J", "+9", 2, nowW,
      RStatus.confirmed⟩], 3⟩

/-- C8 witness: with no confirmed `+7` row left, cancelling `+7` again is
a no-op returning `false`, and the confirmed `+9` row traces back to an
already-confirmed row. -/
theorem C8_witness :
    dbT1.cancel_reservation stC8w "+7" none = (false, stC8w) ∧
    ∃ r1 ∈ stC8w.resvs, r1.id = 2 ∧ r1.status = RStatus.confirmed ∧
      r1.table_id = 1 ∧
      r1.slot_datetime = (⟨1140, 0, 0, some 180⟩ : Dtm) :=
  ⟨(C8_cancel_safe dbT1 stC8w "+7" none).1 (by decide),
    (C8_cancel_safe dbT1 stC8w "+7" none).2
      ⟨2, 1, ⟨1140, 0, 0, some 180⟩, "J", "+9", 2, nowW, RStatus.confirmed⟩
      (by decide) rfl⟩

/-! ### C4 — normalization hardcodes 30 minutes -/

/-- A `ReservationDB` configured with `slot_duration_minutes = 15`. -/
def dbC4 : ReservationDB := ⟨180, 15, []⟩

/-- C4 (code bug): with `slot_duration_minutes = 15` configured, the naive
input 00:45:30.000500 should truncate to 00:45 — 45 is already a multiple
of the configured duration, as the second conjunct records — but
`_normalize_datetime` floors the minute with the literal 30 and returns
00:30 (tz-localized), ignoring the configured duration. -/
theorem C4_hardcoded_thirty :
    dbC4._normalize_datetime ⟨45, 30, 500, none⟩ = ⟨30, 0, 0, some 180⟩ ∧
    (45 / dbC4.slot_duration_minutes) * dbC4.slot_duration_minutes =
      (45 : Int) := by
  constructor <;> decide

/-! ### C1, C9 — ledger invariants over arbitrary operation sequences -/

/-- C1: running any sequence of `book_slot`, `update_reservation_time` and
`cancel_reservation` operations sequentially from the empty ledger — the
quantification over all sequences covers every observable prefix point —
no two reservations with status `'confirmed'` ever share the same
`(table_id, slot_datetime)` pair. -/
theorem C1_exclusivity (db : ReservationDB) (ops : List Op) :
    noDoubleBooking (execOps db emptyDB ops) :=
  (ledgerInv_execOps ops (ledgerInv_empty db)).2.2.1

/-- C9: after any operation sequence from the empty ledger every confirmed
reservation is assigned a seeded table whose capacity is at least the
reservation's guest count; `update_reservation_time` re-resolves
availability with the located row's original guest count, so reschedules
preserve the invariant. -/
theorem C9_capacity (db : ReservationDB) (ops : List Op) :
    capacityRespected db (execOps db emptyDB ops) :=
  (ledgerInv_execOps ops (ledgerInv_empty db)).2.2.2

example :
    ((ReservationDB.mk 180 30 [])._normalize_datetime ⟨1085, 3, 4, none⟩) =
      ⟨1080, 0, 0, some 180⟩ := by decide

example :
    ((ReservationDB.mk 180 30 [⟨1, "A", 2, "hall"⟩]).book_slot
        ⟨0, 0, 0, some 180⟩ emptyDB ⟨1085, 3, 4, none⟩ "Ivan" "+7" 2).1 =
      Except.ok (some ⟨⟨1080, 0, 0, some 180⟩, "A", "hall"⟩) := rfl
